import Mathlib

/-!
Verification of the layered pairwise-graph engine `CGraphLayeredExt`
(src/modules/DGM/GraphLayeredExt.h) against its specification.

The repository ships only the class header: the constructor, `getType`,
`getGraph` and `getSize` are inline (source lines 42, 74, 153, 158) and are
embedded from the source; the bodies of `buildGraph`, `setGraph`,
`addDefaultEdgesModel`, `addFeatureVecs`, `fillEdges`, `defineEdgeGroup` and
`setEdges` are not in the repository, so those operations are modelled from
the specification (sections 3, 4.1-4.5) and from the header doc comments.
Potentials are embedded as rationals (the source uses float); machine-value
rounding plays no role in any claim settled here.
-/

/-- Graph edges type flag: no edges (GraphLayeredExt.h line 19). -/
def GRAPH_EDGES_NONE : Nat := 0

/-- Graph edges type flag: vertical and horizontal edges (GraphLayeredExt.h line 20). -/
def GRAPH_EDGES_GRID : Nat := 1

/-- Graph edges type flag: diagonal edges (GraphLayeredExt.h line 21). -/
def GRAPH_EDGES_DIAG : Nat := 2

/-- Graph edges type flag: links, i.e. inter-layer edges (GraphLayeredExt.h line 22). -/
def GRAPH_EDGES_LINK : Nat := 4

/-- Spatial size of the graph (cv::Size): width and height in sites. -/
structure Size where
  width : Nat
  height : Nat
deriving DecidableEq

/-- Node of the layered graph: a site (x, y) in one layer, carrying an optional
potential (none until a potential is assigned). -/
structure Node (α : Type) where
  x : Nat
  y : Nat
  layer : Nat
  pot : Option α
deriving DecidableEq

/-- Edge of the layered graph: the two endpoint (x, y, layer) triples, the group
id, and an optional potential (none until a potential is assigned). -/
structure Edge (α : Type) where
  x1 : Nat
  y1 : Nat
  l1 : Nat
  x2 : Nat
  y2 : Nat
  l2 : Nat
  group : Nat
  pot : Option α
deriving DecidableEq

/-- State of a `CGraphLayeredExt` engine together with the contents of its
backing `IGraphPairwise` graph. `m_graph` is the identity of the backing graph
reference, `m_nLayers` and `m_gType` are the constructor parameters and
`m_size` the current size (GraphLayeredExt.h lines 161-165); `nodes` and
`edges` are the contents of the backing graph. -/
structure EngineState (α : Type) where
  m_graph : Nat
  m_nLayers : Nat
  m_gType : Nat
  m_size : Size
  nodes : List (Node α)
  edges : List (Edge α)
deriving DecidableEq

/-- The constructor `CGraphLayeredExt(graph, nLayers, gType)` (GraphLayeredExt.h
line 42): pure member initialization, no validation of any argument; `m_size`
starts at (0, 0) and the backing graph is referenced as given. -/
def mkCGraphLayeredExt (α : Type) (graph nLayers gType : Nat) : EngineState α :=
  { m_graph := graph, m_nLayers := nLayers, m_gType := gType,
    m_size := ⟨0, 0⟩, nodes := [], edges := [] }

/-- The constructor called with its default `gType` argument, which the source
declares as `GRAPH_EDGES_GRID` (GraphLayeredExt.h line 42). -/
def mkCGraphLayeredExtDefault (α : Type) (graph nLayers : Nat) : EngineState α :=
  mkCGraphLayeredExt α graph nLayers GRAPH_EDGES_GRID

/-- Source getter `getType` (GraphLayeredExt.h line 153): returns `m_gType`. -/
def getType {α : Type} (s : EngineState α) : Nat := s.m_gType

/-- Source getter `getGraph` (GraphLayeredExt.h line 158): returns the reference to the
backing graph, embedded as the identity of that graph. -/
def getGraph {α : Type} (s : EngineState α) : Nat := s.m_graph

/-- Source getter `getSize` (GraphLayeredExt.h line 74): returns `m_size`. -/
def getSize {α : Type} (s : EngineState α) : Size := s.m_size

/-- Modelled from the spec: the nodes created by `CGraphLayeredExt::buildGraph`,
whose body is not in the repository (only its declaration, GraphLayeredExt.h
line 52). Spec section 4.1: `width × height × layerCount` nodes, one per site
and layer, with no potential assigned yet. -/
def nodesOf (α : Type) (W H L : Nat) : List (Node α) :=
  (List.range L).flatMap fun l =>
    (List.range H).flatMap fun y =>
      (List.range W).map fun x => ⟨x, y, l, none⟩

/-- Modelled from the spec: the grid edges created by
`CGraphLayeredExt::buildGraph` (body not in the repository). Spec section 4.1:
for every site, one edge to its right neighbor and one to its neighbor below,
replicated per layer; group id 0 for intra-layer edges. -/
def gridEdgesOf (α : Type) (W H L : Nat) : List (Edge α) :=
  (List.range L).flatMap fun l =>
    ((List.range H).flatMap fun y =>
      (List.range (W - 1)).map fun x => ⟨x, y, l, x + 1, y, l, 0, none⟩) ++
    ((List.range (H - 1)).flatMap fun y =>
      (List.range W).map fun x => ⟨x, y, l, x, y + 1, l, 0, none⟩)

/-- Modelled from the spec: the diagonal edges created by
`CGraphLayeredExt::buildGraph` (body not in the repository). Spec section 4.1:
for every site, edges to the two diagonal neighbors (down-right and down-left),
replicated per layer; group id 0. -/
def diagEdgesOf (α : Type) (W H L : Nat) : List (Edge α) :=
  (List.range L).flatMap fun l =>
    ((List.range (H - 1)).flatMap fun y =>
      (List.range (W - 1)).map fun x => ⟨x, y, l, x + 1, y + 1, l, 0, none⟩) ++
    ((List.range (H - 1)).flatMap fun y =>
      (List.range (W - 1)).map fun x => ⟨x + 1, y, l, x, y + 1, l, 0, none⟩)

/-- Modelled from the spec: the link (inter-layer) edges created by
`CGraphLayeredExt::buildGraph` (body not in the repository). Spec section 4.1:
for every site, one edge connecting the same (x, y) across each pair of
adjacent layers; group id 1. With fewer than two layers the list is empty. -/
def linkEdgesOf (α : Type) (W H L : Nat) : List (Edge α) :=
  (List.range (L - 1)).flatMap fun l =>
    (List.range H).flatMap fun y =>
      (List.range W).map fun x => ⟨x, y, l, x, y, l + 1, 1, none⟩

/-- Modelled from the spec: `CGraphLayeredExt::buildGraph(graphSize)`, whose
body is not in the repository (declaration and doc comment at
GraphLayeredExt.h lines 46-52). It fully replaces the previous structure with
`W·H·L` nodes and the edge classes selected by the `m_gType` bit flags; all
intra-layer edges get group id 0 and all links group id 1 (header doc,
line 48). -/
def buildGraph {α : Type} (s : EngineState α) (graphSize : Size) : EngineState α :=
  { s with
    m_size := graphSize,
    nodes := nodesOf α graphSize.width graphSize.height s.m_nLayers,
    edges :=
      (if s.m_gType &&& GRAPH_EDGES_GRID ≠ 0 then
        gridEdgesOf α graphSize.width graphSize.height s.m_nLayers else []) ++
      (if s.m_gType &&& GRAPH_EDGES_DIAG ≠ 0 then
        diagEdgesOf α graphSize.width graphSize.height s.m_nLayers else []) ++
      (if s.m_gType &&& GRAPH_EDGES_LINK ≠ 0 then
        linkEdgesOf α graphSize.width graphSize.height s.m_nLayers else []) }

/-- Number of link (inter-layer) edges of the engine state: edges whose two
endpoints lie in different layers. -/
def linkEdgeCount {α : Type} (s : EngineState α) : Nat :=
  s.edges.countP fun e => e.l1 != e.l2

/-- Whether the topology contains any link (inter-layer) edge. -/
def hasLinkEdges {α : Type} (s : EngineState α) : Bool :=
  s.edges.any fun e => e.l1 != e.l2

/-- Sign of a rational number as used for the line-side test of
`defineEdgeGroup`: -1, 0 or 1. -/
def lsign (q : Rat) : Int :=
  if q < 0 then -1 else if 0 < q then 1 else 0

/-- Value of the line equation `A·x + B·y + C` at a site (x, y), the layer
being ignored (spec section 4.2). -/
def lineVal (A B C : Rat) (x y : Nat) : Rat :=
  A * x + B * y + C

/-- Modelled from the spec: whether the two endpoint sites of an edge lie on
opposite sides of the line `A·x + B·y + C = 0`, i.e. the sign of the line
equation differs between the two endpoint (x, y) positions, ignoring layer
(spec section 4.2). -/
def straddlesLine {α : Type} (A B C : Rat) (e : Edge α) : Bool :=
  lsign (lineVal A B C e.x1 e.y1) != lsign (lineVal A B C e.x2 e.y2)

/-- Modelled from the spec: the per-edge action of
`CGraphLayeredExt::defineEdgeGroup` (body not in the repository; declaration
at GraphLayeredExt.h line 142). An edge whose endpoints straddle the line is
reclassified into the given group; any other edge is left untouched. -/
def reassignEdge {α : Type} (A B C : Rat) (group : Nat) (e : Edge α) : Edge α :=
  if straddlesLine A B C e then { e with group := group } else e

/-- Modelled from the spec: `CGraphLayeredExt::defineEdgeGroup(A, B, C, group)`
(body not in the repository; declaration and doc at GraphLayeredExt.h
lines 134-142). Precondition A ≠ 0 or B ≠ 0 (else the line is undefined and
the call is rejected, leaving the state unchanged); otherwise every edge
straddling the line is reclassified into `group`, nothing else changes. -/
def defineEdgeGroup {α : Type} (A B C : Rat) (group : Nat) (s : EngineState α) :
    EngineState α :=
  if A = 0 ∧ B = 0 then s
  else { s with edges := s.edges.map (reassignEdge A B C group) }

/-- Modelled from the spec: `CGraphLayeredExt::setEdges(group, pot)` (body not
in the repository; declaration and doc at GraphLayeredExt.h lines 143-148).
Writes the potential `pot` to every edge of group `g` when `group = some g`,
and to every edge when `group = none`. -/
def setEdges {α : Type} (group : Option Nat) (pot : α) (s : EngineState α) :
    EngineState α :=
  { s with
    edges := s.edges.map fun e =>
      match group with
      | none => { e with pot := some pot }
      | some g => if e.group = g then { e with pot := some pot } else e }

/-- Scaling of a potential (a flattened nStates × nStates matrix of rationals)
by a weight, entrywise. -/
def scalePot (w : Rat) (p : List Rat) : List Rat :=
  p.map fun v => w * v

/-- Modelled from the spec: `CGraphLayeredExt::fillEdges(edgeTrainer,
linkTrainer, featureVectors, vParams, edgeWeight, linkWeight)` with the
multi-channel feature matrix (body not in the repository; declaration and doc
at GraphLayeredExt.h lines 108-120). A trainer is embedded as its prediction
function from the two endpoint feature vectors and the control parameters to a
potential matrix. Every intra-layer edge potential is overwritten with the
edge trainer prediction scaled by `edgeWeight`; every link edge potential
is overwritten with the link trainer prediction scaled by `linkWeight`, or
left as previously assigned when the link trainer is absent (spec
section 4.5). -/
def fillEdges (edgeTrainer : List Rat → List Rat → List Rat → List Rat)
    (linkTrainer : Option (List Rat → List Rat → List Rat → List Rat))
    (featureVectors : Nat → Nat → List Rat) (vParams : List Rat)
    (edgeWeight linkWeight : Rat) (s : EngineState (List Rat)) :
    EngineState (List Rat) :=
  { s with
    edges := s.edges.map fun e =>
      if e.l1 = e.l2 then
        { e with pot := some (scalePot edgeWeight
            (edgeTrainer (featureVectors e.x1 e.y1) (featureVectors e.x2 e.y2)
              vParams)) }
      else
        match linkTrainer with
        | none => e
        | some t =>
          { e with pot := some (scalePot linkWeight
              (t (featureVectors e.x1 e.y1) (featureVectors e.x2 e.y2)
                vParams)) } }

/-- Feature vector at a site assembled from a vector of single-channel feature
images, one image per feature dimension (the `vec_mat_t` form of the feature
data, GraphLayeredExt.h lines 128 and 69). -/
def featAt (fvs : List (Nat → Nat → Rat)) (x y : Nat) : List Rat :=
  fvs.map fun m => m x y

/-- Modelled from the spec: the `vec_mat_t` overload of
`CGraphLayeredExt::fillEdges` (body not in the repository; declaration at
GraphLayeredExt.h line 133). It walks the same edges, reading each endpoint
feature vector across the per-dimension images. -/
def fillEdgesVec (edgeTrainer : List Rat → List Rat → List Rat → List Rat)
    (linkTrainer : Option (List Rat → List Rat → List Rat → List Rat))
    (fvs : List (Nat → Nat → Rat)) (vParams : List Rat)
    (edgeWeight linkWeight : Rat) (s : EngineState (List Rat)) :
    EngineState (List Rat) :=
  { s with
    edges := s.edges.map fun e =>
      if e.l1 = e.l2 then
        { e with pot := some (scalePot edgeWeight
            (edgeTrainer (featAt fvs e.x1 e.y1) (featAt fvs e.x2 e.y2)
              vParams)) }
      else
        match linkTrainer with
        | none => e
        | some t =>
          { e with pot := some (scalePot linkWeight
              (t (featAt fvs e.x1 e.y1) (featAt fvs e.x2 e.y2) vParams)) } }

/-- Modelled from the spec: the default contrast-sensitive edge model as a
prediction function (spec section 4.3). The exact decay form is left open by
the spec (section 9), so the attenuation of the off-diagonal entries is a
parameter `decay` of the model: diagonal entries are `val` and off-diagonal
entries are `val` attenuated by the dissimilarity of the endpoint features. -/
def defaultEdgeTrainer (nStates : Nat) (decay : List Rat → List Rat → Rat)
    (val : Rat) : List Rat → List Rat → List Rat → List Rat :=
  fun f1 f2 _ =>
    (List.range nStates).flatMap fun i =>
      (List.range nStates).map fun j =>
        if i = j then val else val * decay f1 f2

/-- Modelled from the spec: `CGraphLayeredExt::addDefaultEdgesModel
(featureVectors, val, weight)` with the multi-channel feature matrix (body not
in the repository; declaration at GraphLayeredExt.h line 66): fills the
non-link edges through the default contrast-sensitive model. -/
def addDefaultEdgesModelMulti (nStates : Nat)
    (decay : List Rat → List Rat → Rat) (featureVectors : Nat → Nat → List Rat)
    (val weight : Rat) (s : EngineState (List Rat)) : EngineState (List Rat) :=
  fillEdges (defaultEdgeTrainer nStates decay val) none featureVectors []
    weight 1 s

/-- Modelled from the spec: the `vec_mat_t` overload of
`CGraphLayeredExt::addDefaultEdgesModel` (body not in the repository;
declaration at GraphLayeredExt.h line 73). -/
def addDefaultEdgesModelVec (nStates : Nat)
    (decay : List Rat → List Rat → Rat) (fvs : List (Nat → Nat → Rat))
    (val weight : Rat) (s : EngineState (List Rat)) : EngineState (List Rat) :=
  fillEdgesVec (defaultEdgeTrainer nStates decay val) none fvs [] weight 1 s

/-- Matrix of per-site data (node potentials): a spatial size together with the
value at each site. -/
structure PotMat (α : Type) where
  width : Nat
  height : Nat
  valAt : Nat → Nat → α

/-- Spatial size of a potential matrix. -/
def PotMat.sizeOf {α : Type} (p : PotMat α) : Size :=
  ⟨p.width, p.height⟩

/-- Modelled from the spec: the node-potential write of the single-matrix
`CGraphLayeredExt::setGraph(pots)` (body not in the repository; declaration at
GraphLayeredExt.h line 53): every base-layer node receives the potential of
its site; other layers are not covered by the single-layer form. -/
def writeNodePots1 {α : Type} (pots : PotMat α) (s : EngineState α) :
    EngineState α :=
  { s with
    nodes := s.nodes.map fun n =>
      if n.layer = 0 then { n with pot := some (pots.valAt n.x n.y) } else n }

/-- Modelled from the spec: the node-potential write of the two-matrix
`CGraphLayeredExt::setGraph(potBase, potOccl)` (body not in the repository;
declaration and doc at GraphLayeredExt.h lines 76-87): base-layer nodes
receive potentials from `potBase`, the other layers from `potOccl`. -/
def writeNodePots2 {α : Type} (potBase potOccl : PotMat α) (s : EngineState α) :
    EngineState α :=
  { s with
    nodes := s.nodes.map fun n =>
      if n.layer = 0 then { n with pot := some (potBase.valAt n.x n.y) }
      else { n with pot := some (potOccl.valAt n.x n.y) } }

/-- Modelled from the spec: `CGraphLayeredExt::setGraph(pots)` (body not in the
repository). If the topology has not been built yet (the size is still the
constructor value (0, 0)), `buildGraph` is first invoked with the potential
matrix spatial size (header doc, GraphLayeredExt.h lines 78-82, and spec
section 4.3); then the node potentials are written. -/
def setGraph1 {α : Type} (pots : PotMat α) (s : EngineState α) : EngineState α :=
  writeNodePots1 pots
    (if s.m_size = ⟨0, 0⟩ then buildGraph s pots.sizeOf else s)

/-- Modelled from the spec: `CGraphLayeredExt::setGraph(potBase, potOccl)`
(body not in the repository; declaration and doc at GraphLayeredExt.h
lines 76-87). If the topology has not been built yet, `buildGraph` is first
invoked with the spatial size of `potBase`; then the node potentials are written. -/
def setGraph2 {α : Type} (potBase potOccl : PotMat α) (s : EngineState α) :
    EngineState α :=
  writeNodePots2 potBase potOccl
    (if s.m_size = ⟨0, 0⟩ then buildGraph s potBase.sizeOf else s)

/-- One training sample handed to the external edge trainer: the feature
vectors and ground-truth states at the two endpoints of an edge. -/
structure TrainSample where
  f1 : List Rat
  f2 : List Rat
  gt1 : Nat
  gt2 : Nat
deriving DecidableEq

/-- Modelled from the spec: `CGraphLayeredExt::addFeatureVecs(edgeTrainer,
featureVectors, gt)` (body not in the repository; declaration and doc at
GraphLayeredExt.h lines 88-97). The external trainer is embedded as its list
of accumulated samples. Usable only on a link-free topology: if link edges
exist the call is rejected as a no-op and the trainer receives nothing
(spec sections 4.4 and 7); otherwise one sample per edge is appended. -/
def addFeatureVecs {α : Type} (featureVectors : Nat → Nat → List Rat)
    (gt : Nat → Nat → Nat) (trainer : List TrainSample) (s : EngineState α) :
    List TrainSample :=
  if hasLinkEdges s then trainer
  else
    trainer ++ s.edges.map fun e =>
      ⟨featureVectors e.x1 e.y1, featureVectors e.x2 e.y2,
        gt e.x1 e.y1, gt e.x2 e.y2⟩

/-- Statement that an operation result `s2` keeps the stored graph type, the
layer count and the backing-graph binding of the state `s` it was computed
from. In the source `m_nLayers` and `m_gType` are const members and `m_graph`
a C++ reference (GraphLayeredExt.h lines 162-164), so no member function can
rebind them; the embedding proves this for every modelled operation. -/
def preservesBinding {α : Type} (s2 s : EngineState α) : Prop :=
  getType s2 = getType s ∧ getGraph s2 = getGraph s ∧
    s2.m_nLayers = s.m_nLayers

/-- Length of a flatMap whose pieces all have the same length. -/
theorem length_flatMap_const {α β : Type} (l : List α) (f : α → List β) (m : Nat)
    (h : ∀ a ∈ l, (f a).length = m) : (l.flatMap f).length = l.length * m := by
  induction l with
  | nil => simp
  | cons a t ih =>
    simp only [List.flatMap_cons, List.length_append, List.length_cons]
    rw [h a (List.mem_cons_self a t), ih fun b hb => h b (List.mem_cons_of_mem a hb)]
    ring

/-- The node list of a build has exactly `W · H · L` entries. -/
theorem nodesOf_length (α : Type) (W H L : Nat) :
    (nodesOf α W H L).length = W * H * L := by
  unfold nodesOf
  rw [length_flatMap_const _ _ (H * W)]
  · rw [List.length_range]; ring
  · intro l _
    rw [length_flatMap_const _ _ W]
    · rw [List.length_range]
    · intro y _
      rw [List.length_map, List.length_range]

/-- The grid-edge list of a build has `L · (H · (W−1) + (H−1) · W)` entries. -/
theorem gridEdgesOf_length (α : Type) (W H L : Nat) :
    (gridEdgesOf α W H L).length = L * (H * (W - 1) + (H - 1) * W) := by
  unfold gridEdgesOf
  rw [length_flatMap_const _ _ (H * (W - 1) + (H - 1) * W)]
  · rw [List.length_range]
  · intro l _
    rw [List.length_append, length_flatMap_const _ _ (W - 1), length_flatMap_const _ _ W]
    · rw [List.length_range, List.length_range]
    · intro y _
      rw [List.length_map, List.length_range]
    · intro y _
      rw [List.length_map, List.length_range]

/-- The link-edge list of a build has `(L−1) · (H · W)` entries. -/
theorem linkEdgesOf_length (α : Type) (W H L : Nat) :
    (linkEdgesOf α W H L).length = (L - 1) * (H * W) := by
  unfold linkEdgesOf
  rw [length_flatMap_const _ _ (H * W)]
  · rw [List.length_range]
  · intro l _
    rw [length_flatMap_const _ _ W]
    · rw [List.length_range]
    · intro y _
      rw [List.length_map, List.length_range]

/-- Every edge of the grid-edge list is intra-layer with group id 0. -/
theorem mem_gridEdgesOf {α : Type} {W H L : Nat} {e : Edge α}
    (he : e ∈ gridEdgesOf α W H L) : e.l1 = e.l2 ∧ e.group = 0 := by
  simp only [gridEdgesOf, List.mem_flatMap, List.mem_append, List.mem_map,
    List.mem_range] at he
  obtain ⟨l, -, he⟩ := he
  rcases he with ⟨y, -, x, -, rfl⟩ | ⟨y, -, x, -, rfl⟩ <;> exact ⟨rfl, rfl⟩

/-- Every edge of the diagonal-edge list is intra-layer with group id 0. -/
theorem mem_diagEdgesOf {α : Type} {W H L : Nat} {e : Edge α}
    (he : e ∈ diagEdgesOf α W H L) : e.l1 = e.l2 ∧ e.group = 0 := by
  simp only [diagEdgesOf, List.mem_flatMap, List.mem_append, List.mem_map,
    List.mem_range] at he
  obtain ⟨l, -, he⟩ := he
  rcases he with ⟨y, -, x, -, rfl⟩ | ⟨y, -, x, -, rfl⟩ <;> exact ⟨rfl, rfl⟩

/-- Every edge of the link-edge list joins two distinct layers and has group
id 1. -/
theorem mem_linkEdgesOf {α : Type} {W H L : Nat} {e : Edge α}
    (he : e ∈ linkEdgesOf α W H L) : e.l1 ≠ e.l2 ∧ e.group = 1 := by
  simp only [linkEdgesOf, List.mem_flatMap, List.mem_map, List.mem_range] at he
  obtain ⟨l, -, y, -, x, -, rfl⟩ := he
  refine ⟨?_, rfl⟩
  show l ≠ l + 1
  omega

/-- Grid edges contribute nothing to the link-edge count. -/
theorem countLinks_gridEdgesOf (α : Type) (W H L : Nat) :
    (gridEdgesOf α W H L).countP (fun e => e.l1 != e.l2) = 0 := by
  apply List.countP_eq_zero.mpr
  intro e he
  have h := (mem_gridEdgesOf he).1
  simp [h]

/-- Diagonal edges contribute nothing to the link-edge count. -/
theorem countLinks_diagEdgesOf (α : Type) (W H L : Nat) :
    (diagEdgesOf α W H L).countP (fun e => e.l1 != e.l2) = 0 := by
  apply List.countP_eq_zero.mpr
  intro e he
  have h := (mem_diagEdgesOf he).1
  simp [h]

/-- Every entry of the link-edge list counts as a link edge. -/
theorem countLinks_linkEdgesOf (α : Type) (W H L : Nat) :
    (linkEdgesOf α W H L).countP (fun e => e.l1 != e.l2)
      = (L - 1) * (H * W) := by
  rw [List.countP_eq_length.mpr, linkEdgesOf_length]
  intro e he
  have h := (mem_linkEdgesOf he).1
  simpa using h

/-- C1: for every buildGraph call with grid size (W, H), layer count L ≥ 1 and
the grid and link edge-type flags set in the graph type, exactly W·H·L nodes
are created, and the number of link (inter-layer) edges equals W·H·(L−1) when
L > 1, and 0 when L = 1. -/
theorem C1_buildGraph_node_and_link_count (W H L t graph : Nat) (hL : 1 ≤ L)
    (hGrid : t &&& GRAPH_EDGES_GRID ≠ 0) (hLink : t &&& GRAPH_EDGES_LINK ≠ 0) :
    (buildGraph (mkCGraphLayeredExt Nat graph L t) ⟨W, H⟩).nodes.length
      = W * H * L ∧
    (1 < L →
      linkEdgeCount (buildGraph (mkCGraphLayeredExt Nat graph L t) ⟨W, H⟩)
        = W * H * (L - 1)) ∧
    (L = 1 →
      linkEdgeCount (buildGraph (mkCGraphLayeredExt Nat graph L t) ⟨W, H⟩)
        = 0) := by
  have hcount :
      linkEdgeCount (buildGraph (mkCGraphLayeredExt Nat graph L t) ⟨W, H⟩)
        = (L - 1) * (H * W) := by
    simp only [linkEdgeCount, buildGraph, mkCGraphLayeredExt, List.countP_append]
    have h1 : (if t &&& GRAPH_EDGES_GRID ≠ 0 then gridEdgesOf Nat W H L
        else []).countP (fun e => e.l1 != e.l2) = 0 := by
      split
      all_goals first
      | exact countLinks_gridEdgesOf Nat W H L
      | rfl
    have h2 : (if t &&& GRAPH_EDGES_DIAG ≠ 0 then diagEdgesOf Nat W H L
        else []).countP (fun e => e.l1 != e.l2) = 0 := by
      split
      all_goals first
      | exact countLinks_diagEdgesOf Nat W H L
      | rfl
    rw [h1, h2, if_pos hLink, countLinks_linkEdgesOf]
    simp
  refine ⟨?_, ?_, ?_⟩
  · exact nodesOf_length Nat W H L
  · intro _
    rw [hcount]; ring
  · intro h1
    rw [hcount, h1]
    simp

/-- Witness for C1 at W = 2, H = 1, L = 2, gType = 5 (grid and link flags):
4 nodes and 2 link edges. -/
theorem C1_buildGraph_node_and_link_count_witness :
    (1 : Nat) ≤ 2 ∧ ((5 : Nat) &&& GRAPH_EDGES_GRID ≠ 0) ∧
    ((5 : Nat) &&& GRAPH_EDGES_LINK ≠ 0) ∧
    (buildGraph (mkCGraphLayeredExt Nat 0 2 5) ⟨2, 1⟩).nodes.length = 4 ∧
    linkEdgeCount (buildGraph (mkCGraphLayeredExt Nat 0 2 5) ⟨2, 1⟩) = 2 :=
  ⟨by decide, by decide, by decide,
    (C1_buildGraph_node_and_link_count 2 1 2 5 0 (by decide) (by decide)
      (by decide)).1,
    (C1_buildGraph_node_and_link_count 2 1 2 5 0 (by decide) (by decide)
      (by decide)).2.1 (by decide)⟩

/-- C2: for every buildGraph call with L = 1 and only the grid edge-type flag
set, the number of edges created equals W·(H−1) + H·(W−1); and after any build,
every intra-layer edge has group id 0 and every link edge has group id 1. -/
theorem C2_grid_edge_count_and_default_groups :
    (∀ W H graph : Nat,
      (buildGraph (mkCGraphLayeredExt Nat graph 1 GRAPH_EDGES_GRID)
        ⟨W, H⟩).edges.length = W * (H - 1) + H * (W - 1)) ∧
    (∀ (α : Type) (W H L t graph : Nat),
      ∀ e ∈ (buildGraph (mkCGraphLayeredExt α graph L t) ⟨W, H⟩).edges,
        (e.l1 = e.l2 → e.group = 0) ∧ (e.l1 ≠ e.l2 → e.group = 1)) := by
  constructor
  · intro W H graph
    have hedges :
        (buildGraph (mkCGraphLayeredExt Nat graph 1 GRAPH_EDGES_GRID)
          ⟨W, H⟩).edges = gridEdgesOf Nat W H 1 ++ [] ++ [] := by
      simp only [buildGraph, mkCGraphLayeredExt]
      rw [if_pos (by decide), if_neg (by decide), if_neg (by decide)]
    rw [hedges]
    simp only [List.append_nil]
    rw [gridEdgesOf_length]
    ring
  · intro α W H L t graph e he
    simp only [buildGraph, mkCGraphLayeredExt, List.mem_append] at he
    rcases he with (he | he) | he
    · split at he
      · have h := mem_gridEdgesOf he
        exact ⟨fun _ => h.2, fun hn => absurd h.1 hn⟩
      · simp at he
    · split at he
      · have h := mem_diagEdgesOf he
        exact ⟨fun _ => h.2, fun hn => absurd h.1 hn⟩
      · simp at he
    · split at he
      · have h := mem_linkEdgesOf he
        exact ⟨fun heq => absurd heq h.1, fun _ => h.2⟩
      · simp at he

/-- Witness for C2: a 2 × 2 single-layer grid build has 4 edges, and in a
1 × 1 two-layer grid-and-link build the link edge is a member and carries
group id 1. -/
theorem C2_grid_edge_count_and_default_groups_witness :
    (buildGraph (mkCGraphLayeredExt Nat 0 1 GRAPH_EDGES_GRID)
      ⟨2, 2⟩).edges.length = 4 ∧
    (⟨0, 0, 0, 0, 0, 1, 1, none⟩ : Edge Nat) ∈
      (buildGraph (mkCGraphLayeredExt Nat 0 2 5) ⟨1, 1⟩).edges ∧
    (⟨0, 0, 0, 0, 0, 1, 1, none⟩ : Edge Nat).group = 1 :=
  ⟨C2_grid_edge_count_and_default_groups.1 2 2 0, by decide,
    (C2_grid_edge_count_and_default_groups.2 Nat 1 1 2 5 0
      ⟨0, 0, 0, 0, 0, 1, 1, none⟩ (by decide)).2 (by decide)⟩

/-- C3: for every built topology, defineEdgeGroup called with a vertical line
x = k (A = 1, B = 0, C = −k) reassigns to the given group exactly those
horizontal edges whose two endpoint sites lie on opposite sides of x = k
(opposite sides meaning, as the spec defines it, that the sign of the line
equation differs between the two endpoints), reassigns no vertical edge, and
leaves the topology — the nodes and every edge endpoint and potential —
unchanged. -/
theorem C3_defineEdgeGroup_vertical_line {α : Type} (s : EngineState α)
    (k : Rat) (g : Nat) :
    (defineEdgeGroup 1 0 (-k) g s).m_size = s.m_size ∧
    (defineEdgeGroup 1 0 (-k) g s).nodes = s.nodes ∧
    (defineEdgeGroup 1 0 (-k) g s).edges
      = s.edges.map (reassignEdge 1 0 (-k) g) ∧
    (∀ e : Edge α,
      (reassignEdge 1 0 (-k) g e).x1 = e.x1 ∧
      (reassignEdge 1 0 (-k) g e).y1 = e.y1 ∧
      (reassignEdge 1 0 (-k) g e).l1 = e.l1 ∧
      (reassignEdge 1 0 (-k) g e).x2 = e.x2 ∧
      (reassignEdge 1 0 (-k) g e).y2 = e.y2 ∧
      (reassignEdge 1 0 (-k) g e).l2 = e.l2 ∧
      (reassignEdge 1 0 (-k) g e).pot = e.pot) ∧
    (∀ e : Edge α, e.y1 = e.y2 → e.l1 = e.l2 →
      reassignEdge 1 0 (-k) g e
        = if lsign ((e.x1 : Rat) - k) ≠ lsign ((e.x2 : Rat) - k)
          then { e with group := g } else e) ∧
    (∀ e : Edge α, e.x1 = e.x2 → reassignEdge 1 0 (-k) g e = e) := by
  have hAB : ¬((1 : Rat) = 0 ∧ (0 : Rat) = 0) := by
    intro h
    exact one_ne_zero h.1
  have hval : ∀ x y : Nat, lineVal 1 0 (-k) x y = (x : Rat) - k := by
    intro x y
    unfold lineVal
    ring
  refine ⟨?_, ?_, ?_, ?_, ?_, ?_⟩
  · unfold defineEdgeGroup
    rw [if_neg hAB]
  · unfold defineEdgeGroup
    rw [if_neg hAB]
  · unfold defineEdgeGroup
    rw [if_neg hAB]
  · intro e
    unfold reassignEdge
    split <;> exact ⟨rfl, rfl, rfl, rfl, rfl, rfl, rfl⟩
  · intro e _ _
    unfold reassignEdge straddlesLine
    rw [hval, hval]
    by_cases h : lsign ((e.x1 : Rat) - k) = lsign ((e.x2 : Rat) - k)
    · simp [h]
    · simp [h]
  · intro e hx
    unfold reassignEdge straddlesLine
    rw [hval, hval, hx]
    simp

/-- Witness for C3: in a 2 × 2 single-layer grid, the line x = 1 lets the
horizontal edge from (0, 0) to (1, 0) be reassigned (its endpoints have line
signs −1 and 0) while the vertical edge from (0, 0) to (0, 1) is untouched,
and the nodes are unchanged. -/
theorem C3_defineEdgeGroup_vertical_line_witness :
    (defineEdgeGroup 1 0 (-1) 7
      (buildGraph (mkCGraphLayeredExt Nat 0 1 1) ⟨2, 2⟩)).nodes
      = (buildGraph (mkCGraphLayeredExt Nat 0 1 1) ⟨2, 2⟩).nodes ∧
    reassignEdge 1 0 (-1) 7 (⟨0, 0, 0, 1, 0, 0, 0, none⟩ : Edge Nat)
      = (if lsign (((0 : Nat) : Rat) - 1) ≠ lsign (((1 : Nat) : Rat) - 1)
         then (⟨0, 0, 0, 1, 0, 0, 7, none⟩ : Edge Nat)
         else (⟨0, 0, 0, 1, 0, 0, 0, none⟩ : Edge Nat)) ∧
    reassignEdge 1 0 (-1) 7 (⟨0, 0, 0, 0, 1, 0, 0, none⟩ : Edge Nat)
      = (⟨0, 0, 0, 0, 1, 0, 0, none⟩ : Edge Nat) :=
  ⟨(C3_defineEdgeGroup_vertical_line
      (buildGraph (mkCGraphLayeredExt Nat 0 1 1) ⟨2, 2⟩) 1 7).2.1,
    (C3_defineEdgeGroup_vertical_line
      (buildGraph (mkCGraphLayeredExt Nat 0 1 1) ⟨2, 2⟩) 1 7).2.2.2.2.1
      ⟨0, 0, 0, 1, 0, 0, 0, none⟩ rfl rfl,
    (C3_defineEdgeGroup_vertical_line
      (buildGraph (mkCGraphLayeredExt Nat 0 1 1) ⟨2, 2⟩) 1 7).2.2.2.2.2
      ⟨0, 0, 0, 0, 1, 0, 0, none⟩ rfl⟩

/-- C4: for every built topology and potential matrix, setEdges with a group
filter changes the potentials of exactly the edges of that group and leaves
every other edge unchanged, setEdges without a filter changes the potentials
of all edges, and both calls are idempotent. -/
theorem C4_setEdges_frame_and_idempotent {α : Type} (s : EngineState α)
    (g : Nat) (p : α) :
    (setEdges (some g) p s).m_size = s.m_size ∧
    (setEdges (some g) p s).nodes = s.nodes ∧
    (setEdges (some g) p s).edges
      = s.edges.map (fun e =>
          if e.group = g then { e with pot := some p } else e) ∧
    (setEdges none p s).edges
      = s.edges.map (fun e => { e with pot := some p }) ∧
    setEdges (some g) p (setEdges (some g) p s) = setEdges (some g) p s ∧
    setEdges none p (setEdges none p s) = setEdges none p s := by
  refine ⟨rfl, rfl, rfl, rfl, ?_, ?_⟩
  · simp only [setEdges, List.map_map]
    congr 1
    apply List.map_congr_left
    intro e _
    simp only [Function.comp_apply]
    by_cases h : e.group = g
    · simp [h]
    · simp [h]
  · simp only [setEdges, List.map_map]
    rfl

/-- C5: for every topology and every fillEdges call whose link-trainer
argument is absent, the potential of every link (inter-layer) edge is left
exactly as previously assigned, while every intra-layer edge potential is
overwritten with the edge trainer prediction scaled by edgeWeight; repeating
the call overwrites rather than accumulates, so it is idempotent. -/
theorem C5_fillEdges_absent_link_trainer
    (et : List Rat → List Rat → List Rat → List Rat)
    (fv : Nat → Nat → List Rat) (vp : List Rat) (we wl : Rat)
    (s : EngineState (List Rat)) :
    (fillEdges et none fv vp we wl s).nodes = s.nodes ∧
    (fillEdges et none fv vp we wl s).edges
      = s.edges.map (fun e =>
          if e.l1 = e.l2 then
            { e with pot := some (scalePot we
                (et (fv e.x1 e.y1) (fv e.x2 e.y2) vp)) }
          else e) ∧
    fillEdges et none fv vp we wl (fillEdges et none fv vp we wl s)
      = fillEdges et none fv vp we wl s := by
  refine ⟨rfl, rfl, ?_⟩
  simp only [fillEdges, List.map_map]
  congr 1
  apply List.map_congr_left
  intro e _
  simp only [Function.comp_apply]
  by_cases h : e.l1 = e.l2
  · simp [h]
  · simp [h]

/-- C6 counterexample: the claim says a layer count of 0 is rejected at
construction, but the constructor (GraphLayeredExt.h line 42) is a pure
member-initializer with no validation: constructing with nLayers = 0 succeeds
and yields a fully formed engine whose stored layer count is 0. -/
theorem C6_counterexample_zero_layers_accepted :
    mkCGraphLayeredExt Nat 7 0 GRAPH_EDGES_GRID
      = { m_graph := 7, m_nLayers := 0, m_gType := GRAPH_EDGES_GRID,
          m_size := ⟨0, 0⟩, nodes := [], edges := [] } ∧
    (mkCGraphLayeredExt Nat 7 0 GRAPH_EDGES_GRID).m_nLayers = 0 :=
  ⟨rfl, rfl⟩

/-- C6 amended: constructing the engine with a layer count of 0 is accepted,
not rejected: the constructor performs no validation of any argument and
merely stores the given graph reference, layer count and graph type, with
m_size initialized to (0, 0). -/
theorem C6_amended_constructor_accepts_any_layer_count (α : Type)
    (graph n t : Nat) :
    mkCGraphLayeredExt α graph n t
      = { m_graph := graph, m_nLayers := n, m_gType := t,
          m_size := ⟨0, 0⟩, nodes := [], edges := [] } ∧
    (mkCGraphLayeredExt α graph n t).m_nLayers = n :=
  ⟨rfl, rfl⟩

/-- C7: for every setGraph call (single-layer or two-layer form) made before
any buildGraph call, buildGraph is first invoked implicitly using the spatial
size of the supplied potential matrix, and then the per-site node potentials
are written. -/
theorem C7_setGraph_builds_before_write {α : Type} (graph L t : Nat)
    (pots potsB potsO : PotMat α) :
    setGraph1 pots (mkCGraphLayeredExt α graph L t)
      = writeNodePots1 pots
          (buildGraph (mkCGraphLayeredExt α graph L t) pots.sizeOf) ∧
    setGraph2 potsB potsO (mkCGraphLayeredExt α graph L t)
      = writeNodePots2 potsB potsO
          (buildGraph (mkCGraphLayeredExt α graph L t) potsB.sizeOf) := by
  have hc : (mkCGraphLayeredExt α graph L t).m_size = (⟨0, 0⟩ : Size) := rfl
  constructor
  · unfold setGraph1
    rw [if_pos hc]
  · unfold setGraph2
    rw [if_pos hc]

/-- C8: for every topology that contains link edges, a call to addFeatureVecs
is rejected as a no-op: the external edge trainer receives no training sample
(and the graph state, which the modelled sampler never touches, is
unchanged). -/
theorem C8_addFeatureVecs_rejected_on_layered {α : Type} (s : EngineState α)
    (fv : Nat → Nat → List Rat) (gt : Nat → Nat → Nat)
    (trainer : List TrainSample) (h : hasLinkEdges s = true) :
    addFeatureVecs fv gt trainer s = trainer := by
  unfold addFeatureVecs
  rw [if_pos h]

/-- Witness for C8: a 1 × 1 two-layer grid-and-link build has a link edge, and
addFeatureVecs on it hands the trainer nothing. -/
theorem C8_addFeatureVecs_rejected_on_layered_witness :
    hasLinkEdges (buildGraph (mkCGraphLayeredExt Nat 0 2 5) ⟨1, 1⟩) = true ∧
    addFeatureVecs (fun _ _ => []) (fun _ _ => 0) []
      (buildGraph (mkCGraphLayeredExt Nat 0 2 5) ⟨1, 1⟩) = [] :=
  ⟨by decide,
    C8_addFeatureVecs_rejected_on_layered
      (buildGraph (mkCGraphLayeredExt Nat 0 2 5) ⟨1, 1⟩)
      (fun _ _ => []) (fun _ _ => 0) [] (by decide)⟩

/-- C9: for every built topology, the two overload forms of fillEdges and of
addDefaultEdgesModel — one taking one multi-channel sample per site, the other
a vector of single-channel images, one per feature dimension — produce
identical numeric potentials on every edge whenever the supplied feature data
are equivalent (the multi-channel vector at each site equals the vector read
across the per-dimension images). -/
theorem C9_feature_form_equivalence
    (et : List Rat → List Rat → List Rat → List Rat)
    (lt : Option (List Rat → List Rat → List Rat → List Rat))
    (fv : Nat → Nat → List Rat) (fvs : List (Nat → Nat → Rat))
    (vp : List Rat) (we wl : Rat) (nStates : Nat)
    (decay : List Rat → List Rat → Rat) (val weight : Rat)
    (s : EngineState (List Rat))
    (heq : ∀ x y, fv x y = featAt fvs x y) :
    fillEdges et lt fv vp we wl s = fillEdgesVec et lt fvs vp we wl s ∧
    addDefaultEdgesModelMulti nStates decay fv val weight s
      = addDefaultEdgesModelVec nStates decay fvs val weight s := by
  have hfill : ∀ (et2 : List Rat → List Rat → List Rat → List Rat)
      (lt2 : Option (List Rat → List Rat → List Rat → List Rat))
      (vp2 : List Rat) (we2 wl2 : Rat),
      fillEdges et2 lt2 fv vp2 we2 wl2 s
        = fillEdgesVec et2 lt2 fvs vp2 we2 wl2 s := by
    intro et2 lt2 vp2 we2 wl2
    simp only [fillEdges, fillEdgesVec]
    congr 1
    apply List.map_congr_left
    intro e _
    simp only [heq]
  refine ⟨hfill et lt vp we wl, ?_⟩
  unfold addDefaultEdgesModelMulti addDefaultEdgesModelVec
  exact hfill (defaultEdgeTrainer nStates decay val) none [] weight 1

/-- Witness for C9: a concrete one-dimensional feature set in both forms on a
2 × 1 single-layer grid yields literally equal results. -/
theorem C9_feature_form_equivalence_witness :
    (∀ x y : Nat, (fun (u _ : Nat) => [(u : Rat)]) x y
        = featAt [fun (u _ : Nat) => (u : Rat)] x y) ∧
    fillEdges (fun f1 f2 p => f1 ++ f2 ++ p) none
        (fun (u _ : Nat) => [(u : Rat)]) [] 1 1
        (buildGraph (mkCGraphLayeredExt (List Rat) 0 1 1) ⟨2, 1⟩)
      = fillEdgesVec (fun f1 f2 p => f1 ++ f2 ++ p) none
        [fun (u _ : Nat) => (u : Rat)] [] 1 1
        (buildGraph (mkCGraphLayeredExt (List Rat) 0 1 1) ⟨2, 1⟩) :=
  ⟨fun _ _ => rfl,
    (C9_feature_form_equivalence (fun f1 f2 p => f1 ++ f2 ++ p) none
      (fun (u _ : Nat) => [(u : Rat)]) [fun (u _ : Nat) => (u : Rat)]
      [] 1 1 1 (fun _ _ => 0) 0 0
      (buildGraph (mkCGraphLayeredExt (List Rat) 0 1 1) ⟨2, 1⟩)
      (fun _ _ => rfl)).1⟩

/-- C10: getType always returns the gType byte supplied at construction
(GRAPH_EDGES_GRID when the constructor argument is omitted), getGraph returns
the backing graph supplied at construction, and no operation of the engine
ever changes the stored graph type, the layer count or the backing-graph
binding. -/
theorem C10_type_layers_graph_binding_invariant {α : Type}
    (graph L t gid : Nat) (s : EngineState α) (sz : Size)
    (A B C : Rat) (og : Option Nat) (p : α) (pots potsO : PotMat α)
    (et : List Rat → List Rat → List Rat → List Rat)
    (lt : Option (List Rat → List Rat → List Rat → List Rat))
    (fv : Nat → Nat → List Rat) (fvs : List (Nat → Nat → Rat))
    (vp : List Rat) (we wl : Rat) (r : EngineState (List Rat))
    (nStates : Nat) (decay : List Rat → List Rat → Rat) (val weight : Rat) :
    getType (mkCGraphLayeredExt α graph L t) = t ∧
    getGraph (mkCGraphLayeredExt α graph L t) = graph ∧
    (mkCGraphLayeredExt α graph L t).m_nLayers = L ∧
    getType (mkCGraphLayeredExtDefault α graph L) = GRAPH_EDGES_GRID ∧
    preservesBinding (buildGraph s sz) s ∧
    preservesBinding (defineEdgeGroup A B C gid s) s ∧
    preservesBinding (setEdges og p s) s ∧
    preservesBinding (setGraph1 pots s) s ∧
    preservesBinding (setGraph2 pots potsO s) s ∧
    preservesBinding (fillEdges et lt fv vp we wl r) r ∧
    preservesBinding (fillEdgesVec et lt fvs vp we wl r) r ∧
    preservesBinding (addDefaultEdgesModelMulti nStates decay fv val weight r) r ∧
    preservesBinding (addDefaultEdgesModelVec nStates decay fvs val weight r) r := by
  refine ⟨rfl, rfl, rfl, rfl, ⟨rfl, rfl, rfl⟩, ?_, ⟨rfl, rfl, rfl⟩, ?_, ?_,
    ⟨rfl, rfl, rfl⟩, ⟨rfl, rfl, rfl⟩, ⟨rfl, rfl, rfl⟩, ⟨rfl, rfl, rfl⟩⟩
  · unfold preservesBinding defineEdgeGroup
    split <;> exact ⟨rfl, rfl, rfl⟩
  · unfold preservesBinding setGraph1 writeNodePots1
    split <;> exact ⟨rfl, rfl, rfl⟩
  · unfold preservesBinding setGraph2 writeNodePots2
    split <;> exact ⟨rfl, rfl, rfl⟩
